import Mathlib

/-!
Verification of the NURBS evaluation engine `nurbstk/evaluate.h`
(curve/surface point and derivative evaluation, non-rational and rational),
shallowly embedded over exact rationals `ℚ`.  Geometry vectors of dimension
`n` are functions `Fin n → ℚ`.  The collaborators that the header consumes
(`findSpan`, `bsplineBasis`, `bsplineDerBasis` from `basis.h`, the
homogeneous-coordinate helpers and `binomial` from `util.h`) are not part of
the evaluated sources, so they are modelled from the specification of their
contracts; everything in `evaluate.h` itself is translated statement by
statement.
-/

namespace nurbstk

/-- Geometric vector with `n` rational coordinates (embeds `glm::vec<n, T>`). -/
abbrev Vec (n : ℕ) : Type := Fin n → ℚ

/-- Modelled from the spec: `isValidRelation(degree, num_knots, num_ctrl_pts)`,
declared in `evaluate.h` but defined outside the evaluated sources; §4.3: pure
predicate, true iff `num_knots == num_ctrl_pts + degree + 1`. -/
def isValidRelation (degree : ℕ) (num_knots : ℕ) (num_ctrl_pts : ℕ) : Bool :=
  num_knots == num_ctrl_pts + degree + 1

/-- Modelled from the spec: `util::cartesianToHomogenous(point, weight)` from
the excluded `util.h`: the `(D+1)`-vector `(weight·point, weight)`. -/
def cartesianToHomogenous {dim : ℕ} (point : Vec dim) (weight : ℚ) :
    Vec (dim + 1) :=
  Fin.snoc (fun i => weight * point i) weight

/-- Modelled from the spec: `util::homogenousToCartesian` from the excluded
`util.h`: divides the first `D` components by the last. -/
def homogenousToCartesian {dim : ℕ} (v : Vec (dim + 1)) : Vec dim :=
  fun i => v i.castSucc / v (Fin.last dim)

/-- Modelled from the spec: `util::truncateHomogenous` from the excluded
`util.h`: drops the last component without dividing. -/
def truncateHomogenous {dim : ℕ} (v : Vec (dim + 1)) : Vec dim :=
  fun i => v i.castSucc

/-- Modelled from the spec: `util::binomial(n, k)`, the standard binomial
coefficient, from the excluded `util.h`. -/
def binomial (n : ℕ) (k : ℕ) : ℕ :=
  Nat.choose n k

/-- Modelled from the spec: `findSpan(degree, knots, u)` from the excluded
basis subsystem (§6): the index with `knots[span] <= u < knots[span+1]`, a
parameter at the upper domain boundary mapping to the last valid span
`num_knots - degree - 2`. -/
def findSpan (degree : ℕ) (knots : List ℚ) (u : ℚ) : ℕ :=
  let n := knots.length - degree - 2
  if knots.getD (n + 1) 0 ≤ u then n
  else (List.range (n + 1)).foldl
    (fun acc i => if knots.getD i 0 ≤ u then i else acc) degree

/-- One outer iteration (index `j`) of the in-span Cox–de Boor recurrence
turning the `j` non-zero basis values of degree `j-1` into the `j+1` values of
degree `j`. -/
def bsplineBasisStep (knots : List ℚ) (span : ℕ) (u : ℚ) (j : ℕ)
    (N : List ℚ) : List ℚ :=
  let left := fun t => u - knots.getD (span + 1 - t) 0
  let right := fun t => knots.getD (span + t) 0 - u
  let step := (List.range j).foldl
    (fun (acc : List ℚ × ℚ) r =>
      let temp := N.getD r 0 / (right (r + 1) + left (j - r))
      (acc.1 ++ [acc.2 + right (r + 1) * temp], left (j - r) * temp))
    ([], 0)
  step.1 ++ [step.2]

/-- Modelled from the spec: `bsplineBasis(degree, span, knots, u)` from the
excluded basis subsystem (§6): the `degree+1` non-zero B-spline basis values
at `u`, realised by the standard in-span Cox–de Boor recurrence. -/
def bsplineBasis (degree : ℕ) (span : ℕ) (knots : List ℚ) (u : ℚ) :
    List ℚ :=
  (List.range degree).foldl
    (fun N j => bsplineBasisStep knots span u (j + 1) N) [1]

/-- Single B-spline basis function `N_{i,p}` and its derivatives: value
`oneBasisDer knots p i 0 u`, and `k`-th derivative via the standard
derivative recurrence (vanishing-denominator terms treated as zero, which is
the usual 0/0 := 0 convention). -/
def oneBasisDer (knots : List ℚ) : ℕ → ℕ → ℕ → ℚ → ℚ
  | 0, i, 0, u =>
      if knots.getD i 0 ≤ u ∧ u < knots.getD (i + 1) 0 then 1 else 0
  | 0, _, _ + 1, _ => 0
  | p + 1, i, 0, u =>
      (u - knots.getD i 0) / (knots.getD (i + p + 1) 0 - knots.getD i 0) *
          oneBasisDer knots p i 0 u
        + (knots.getD (i + p + 2) 0 - u) /
            (knots.getD (i + p + 2) 0 - knots.getD (i + 1) 0) *
          oneBasisDer knots p (i + 1) 0 u
  | p + 1, i, k + 1, u =>
      (p + 1) *
        (oneBasisDer knots p i k u /
            (knots.getD (i + p + 1) 0 - knots.getD i 0)
          - oneBasisDer knots p (i + 1) k u /
            (knots.getD (i + p + 2) 0 - knots.getD (i + 1) 0))

/-- Modelled from the spec: `bsplineDerBasis(degree, span, knots, u, num_ders)`
from the excluded basis subsystem (§6): `ders[k][j]` is the `k`-th derivative
at `u` of the `j`-th of the `degree+1` non-zero basis functions on the span;
row 0 equals the plain basis values. -/
def bsplineDerBasis (degree : ℕ) (span : ℕ) (knots : List ℚ) (u : ℚ)
    (num_ders : ℕ) : List (List ℚ) :=
  (List.range (num_ders + 1)).map fun k =>
    if k = 0 then bsplineBasis degree span knots u
    else (List.range (degree + 1)).map fun j =>
      oneBasisDer knots degree (span - degree + j) k u

/-- Embedding of `curvePoint` (evaluate.h:41-58): zero-initialise, find the
span and non-zero basis values, then accumulate
`point += N[j] * control_points[span - degree + j]` for `j = 0..degree`. -/
def curvePoint (dim : ℕ) (u : ℚ) (degree : ℕ) (knots : List ℚ)
    (control_points : List (Vec dim)) : Vec dim :=
  let span := findSpan degree knots u
  let N := bsplineBasis degree span knots u
  (List.range (degree + 1)).foldl
    (fun point j => point + N.getD j 0 • control_points.getD (span - degree + j) 0)
    0

/-- Embedding of `rationalCurvePoint` (evaluate.h:68-91): lift every control
point to homogeneous coordinates with its weight, evaluate `curvePoint` in
dimension `dim+1`, and project the result back to cartesian coordinates. -/
def rationalCurvePoint (dim : ℕ) (u : ℚ) (degree : ℕ) (knots : List ℚ)
    (control_points : List (Vec dim)) (weights : List ℚ) : Vec dim :=
  let Cw := (List.range control_points.length).map fun i =>
    cartesianToHomogenous (control_points.getD i 0) (weights.getD i 0)
  homogenousToCartesian (curvePoint (dim + 1) u degree knots Cw)

/-- Embedding of `curveDerivatives` (evaluate.h:102-133): the table resized at
line 112 is value-initialised to zero vectors (`glm::vec` has a trivial
default constructor); lines 115-117 re-zero orders `degree+1..num_ders`;
orders `k <= min(num_ders, degree)` are overwritten with the
basis-derivative/control-point sums.  Entry `k` of the returned list is the
final value of `curve_ders[k]`. -/
def curveDerivatives (dim : ℕ) (u : ℚ) (degree : ℕ) (knots : List ℚ)
    (control_points : List (Vec dim)) (num_ders : ℕ) : List (Vec dim) :=
  let span := findSpan degree knots u
  let ders := bsplineDerBasis degree span knots u num_ders
  let du := min num_ders degree
  (List.range (num_ders + 1)).map fun k =>
    if k ≤ du then
      (List.range (degree + 1)).foldl
        (fun acc j => acc +
          (ders.getD k []).getD j 0 • control_points.getD (span - degree + j) 0)
        0
    else 0

/-- The increasing-`k` recovery loop of `rationalCurveDerivatives`
(evaluate.h:185-191), abstracted over the cartesian parts `Aders` and weight
parts `wders` it is fed: entry `k` is built from the entries `0..k-1` already
written into the output. -/
def rationalCurveDersLoop (dim : ℕ) (Aders : ℕ → Vec dim) (wders : ℕ → ℚ) :
    ℕ → List (Vec dim)
  | 0 => []
  | k + 1 =>
    let prev := rationalCurveDersLoop dim Aders wders k
    let v := (List.range k).foldl
      (fun v i =>
        v - ((binomial k (i + 1) : ℚ) * wders (i + 1)) • prev.getD (k - (i + 1)) 0)
      (Aders k)
    prev ++ [fun t => v t / wders 0]

/-- Embedding of `rationalCurveDerivatives` (evaluate.h:145-192).  The local
`tvecn Aderi` at line 176 is default-initialised, so its last component,
which the copy loop at lines 177-179 never assigns (it stops at `dim - 2`),
holds an indeterminate value, modelled here by the explicit parameter `junk`;
line 181 then takes component `dim - 1` of each homogeneous derivative (the
last *cartesian* coordinate) as its weight part. -/
def rationalCurveDerivatives (dim : ℕ) (junk : ℚ) (u : ℚ) (degree : ℕ)
    (knots : List ℚ) (control_points : List (Vec dim)) (weights : List ℚ)
    (num_ders : ℕ) : List (Vec dim) :=
  let Cw := (List.range control_points.length).map fun i =>
    cartesianToHomogenous (control_points.getD i 0) (weights.getD i 0)
  let Cwders := curveDerivatives (dim + 1) u degree knots Cw num_ders
  let Aders : ℕ → Vec dim := fun k i =>
    if (i : ℕ) < dim - 1 then Cwders.getD k 0 i.castSucc else junk
  let wders : ℕ → ℚ := fun k => Cwders.getD k 0 ⟨dim - 1, by omega⟩
  rationalCurveDersLoop dim Aders wders (num_ders + 1)

/-- Modelled from the spec: the rational curve derivative recovery as §4.1
states it — the cartesian part `A_k` is the first `D` components of the
`k`-th homogeneous derivative, the weight part `w_k` its last component, and
`C_k = (A_k − Σ_{i=1..k} C(k,i)·w_i·C_{k−i}) / w_0` in increasing `k`. -/
def rationalCurveDerivativesSpec (dim : ℕ) (u : ℚ) (degree : ℕ)
    (knots : List ℚ) (control_points : List (Vec dim)) (weights : List ℚ)
    (num_ders : ℕ) : List (Vec dim) :=
  let Cw := (List.range control_points.length).map fun i =>
    cartesianToHomogenous (control_points.getD i 0) (weights.getD i 0)
  let Cwders := curveDerivatives (dim + 1) u degree knots Cw num_ders
  let Aders : ℕ → Vec dim := fun k => truncateHomogenous (Cwders.getD k 0)
  let wders : ℕ → ℚ := fun k => Cwders.getD k 0 (Fin.last dim)
  rationalCurveDersLoop dim Aders wders (num_ders + 1)

/-- Embedding of `surfacePoint` (evaluate.h:205-232): find spans and non-zero
basis values in both directions, contract the control grid against the
u-basis for each of the `degree_v+1` relevant columns, then contract the
intermediates against the v-basis. -/
def surfacePoint (dim : ℕ) (u : ℚ) (v : ℚ) (degree_u : ℕ) (degree_v : ℕ)
    (knots_u : List ℚ) (knots_v : List ℚ)
    (control_points : List (List (Vec dim))) : Vec dim :=
  let span_u := findSpan degree_u knots_u u
  let span_v := findSpan degree_v knots_v v
  let Nu := bsplineBasis degree_u span_u knots_u u
  let Nv := bsplineBasis degree_v span_v knots_v v
  (List.range (degree_v + 1)).foldl
    (fun point l =>
      point + Nv.getD l 0 •
        (List.range (degree_u + 1)).foldl
          (fun temp k =>
            temp + Nu.getD k 0 •
              (control_points.getD (span_u - degree_u + k) []).getD
                (span_v - degree_v + l) 0)
          0)
    0

/-- The homogeneous lift of a control grid with its weight grid, as built in
`rationalSurfacePoint` (evaluate.h:256-267) and `rationalSurfaceDerivatives`
(evaluate.h:373-380): both loops run over `control_points.size()` rows and
`control_points[0].size()` columns. -/
def homogenousGrid (dim : ℕ) (control_points : List (List (Vec dim)))
    (weights : List (List ℚ)) : List (List (Vec (dim + 1))) :=
  (List.range control_points.length).map fun i =>
    (List.range (control_points.getD 0 []).length).map fun j =>
      cartesianToHomogenous ((control_points.getD i []).getD j 0)
        ((weights.getD i []).getD j 0)

/-- Embedding of `rationalSurfacePoint` (evaluate.h:246-275): homogeneous
lift, `surfacePoint` in dimension `dim+1`, projection back to cartesian. -/
def rationalSurfacePoint (dim : ℕ) (u : ℚ) (v : ℚ) (degree_u : ℕ)
    (degree_v : ℕ) (knots_u : List ℚ) (knots_v : List ℚ)
    (control_points : List (List (Vec dim))) (weights : List (List ℚ)) :
    Vec dim :=
  let Cw := homogenousGrid dim control_points weights
  homogenousToCartesian
    (surfacePoint (dim + 1) u v degree_u degree_v knots_u knots_v Cw)

/-- Embedding of `surfaceDerivatives` (evaluate.h:289-343).  The table resized
at lines 296-300 is value-initialised to zero vectors; the loop at lines
303-307 re-zeroes the entries with `k > degree_u` *and* `l > degree_v`; the
computation loop (lines 323-342) overwrites the entries with
`k <= min(num_ders, degree_u)` and `l <= min(num_ders - k, min(num_ders,
degree_v))`; every other entry keeps its zero initialisation. -/
def surfaceDerivatives (dim : ℕ) (u : ℚ) (v : ℚ) (degree_u : ℕ)
    (degree_v : ℕ) (knots_u : List ℚ) (knots_v : List ℚ)
    (control_points : List (List (Vec dim))) (num_ders : ℕ) :
    List (List (Vec dim)) :=
  let span_u := findSpan degree_u knots_u u
  let span_v := findSpan degree_v knots_v v
  let ders_u := bsplineDerBasis degree_u span_u knots_u u num_ders
  let ders_v := bsplineDerBasis degree_v span_v knots_v v num_ders
  let du := min num_ders degree_u
  let dv := min num_ders degree_v
  let temp : ℕ → ℕ → Vec dim := fun k s =>
    (List.range (degree_u + 1)).foldl
      (fun acc r => acc +
        (ders_u.getD k []).getD r 0 •
          (control_points.getD (span_u - degree_u + r) []).getD
            (span_v - degree_v + s) 0)
      0
  (List.range (num_ders + 1)).map fun k =>
    (List.range (num_ders + 1)).map fun l =>
      if k ≤ du ∧ l ≤ min (num_ders - k) dv then
        (List.range (degree_v + 1)).foldl
          (fun acc s => acc + (ders_v.getD l []).getD s 0 • temp k s) 0
      else 0

/-- One entry of the `rationalSurfaceDerivatives` recovery loop
(evaluate.h:398-416), exactly as the code computes it: `rows` holds the
fully-written rows of orders `0..k-1`, `row` the entries of order
`(k, 0..l-1)` already written.  Note the code reads `surf_ders[k - 1][l - j]`
(not `k - i`) in the inner cross-term loop, accumulates those terms into
`tmp` with `-=`, and then *subtracts* `binomial(k,i) * tmp`. -/
def rationalSurfaceDerEntry (dim : ℕ) (A : ℕ → ℕ → Vec dim)
    (w : ℕ → ℕ → ℚ) (rows : List (List (Vec dim))) (row : List (Vec dim))
    (k : ℕ) (l : ℕ) : Vec dim :=
  let der1 := (List.range l).foldl
    (fun der j =>
      der - ((binomial l (j + 1) : ℚ) * w 0 (j + 1)) • row.getD (l - (j + 1)) 0)
    (A k l)
  let der2 := (List.range k).foldl
    (fun der i =>
      let der' := der - ((binomial k (i + 1) : ℚ) * w (i + 1) 0) •
        (rows.getD (k - (i + 1)) []).getD l 0
      let tmp := (List.range l).foldl
        (fun tmp j =>
          tmp - ((binomial l (j + 1) : ℚ) * w (i + 1) (j + 1)) •
            (rows.getD (k - 1) []).getD (l - (j + 1)) 0)
        0
      der' - (binomial k (i + 1) : ℚ) • tmp)
    der1
  (1 / w 0 0) • der2

/-- Modelled from the spec: one entry of the rational surface derivative
recovery as §4.2 states it — subtract the pure-v terms, the pure-u terms and
the mixed cross terms `C(k,i)·C(l,j)·w_{i,j}·surf_ders[k−i][l−j]`, then
divide by the base weight `w_{0,0}`. -/
def rationalSurfaceDerEntrySpec (dim : ℕ) (A : ℕ → ℕ → Vec dim)
    (w : ℕ → ℕ → ℚ) (rows : List (List (Vec dim))) (row : List (Vec dim))
    (k : ℕ) (l : ℕ) : Vec dim :=
  let der1 := (List.range l).foldl
    (fun der j =>
      der - ((binomial l (j + 1) : ℚ) * w 0 (j + 1)) • row.getD (l - (j + 1)) 0)
    (A k l)
  let der2 := (List.range k).foldl
    (fun der i =>
      let der' := der - ((binomial k (i + 1) : ℚ) * w (i + 1) 0) •
        (rows.getD (k - (i + 1)) []).getD l 0
      let tmp := (List.range l).foldl
        (fun tmp j =>
          tmp + ((binomial l (j + 1) : ℚ) * w (i + 1) (j + 1)) •
            (rows.getD (k - (i + 1)) []).getD (l - (j + 1)) 0)
        0
      der' - (binomial k (i + 1) : ℚ) • tmp)
    der1
  (1 / w 0 0) • der2

/-- The inner (increasing `l`) loop of the rational surface derivative
recovery, abstracted over the entry computation: builds the `num_ders - k + 1`
computed entries of row `k` in order. -/
def rationalSurfaceDerRow (dim : ℕ)
    (entry : List (List (Vec dim)) → List (Vec dim) → ℕ → ℕ → Vec dim)
    (rows : List (List (Vec dim))) (k : ℕ) : ℕ → List (Vec dim)
  | 0 => []
  | l + 1 =>
    let row := rationalSurfaceDerRow dim entry rows k l
    row ++ [entry rows row k l]

/-- The outer (increasing `k`) loop of the rational surface derivative
recovery: each row is the `num_ders - k + 1` computed entries followed by the
`k` entries `l > num_ders - k` that keep the zero value the `resize` at line
396 value-initialised them to. -/
def rationalSurfaceDerRows (dim : ℕ)
    (entry : List (List (Vec dim)) → List (Vec dim) → ℕ → ℕ → Vec dim)
    (num_ders : ℕ) : ℕ → List (List (Vec dim))
  | 0 => []
  | k + 1 =>
    let rows := rationalSurfaceDerRows dim entry num_ders k
    rows ++ [rationalSurfaceDerRow dim entry rows k (num_ders - k + 1) ++
      List.replicate k 0]

/-- Embedding of `rationalSurfaceDerivatives` (evaluate.h:359-419):
homogeneous lift of the control grid, homogeneous mixed derivatives via
`surfaceDerivatives` in dimension `dim+1`, then the recovery loop over
`k = 0..num_ders of l = 0..num_ders-k` with the entry computation of
`rationalSurfaceDerEntry`. -/
def rationalSurfaceDerivatives (dim : ℕ) (u : ℚ) (v : ℚ) (degree_u : ℕ)
    (degree_v : ℕ) (knots_u : List ℚ) (knots_v : List ℚ)
    (control_points : List (List (Vec dim))) (weights : List (List ℚ))
    (num_ders : ℕ) : List (List (Vec dim)) :=
  let homo_cp := homogenousGrid dim control_points weights
  let homo_ders := surfaceDerivatives (dim + 1) u v degree_u degree_v
    knots_u knots_v homo_cp num_ders
  let A : ℕ → ℕ → Vec dim := fun i j =>
    truncateHomogenous ((homo_ders.getD i []).getD j 0)
  let w : ℕ → ℕ → ℚ := fun i j =>
    (homo_ders.getD i []).getD j 0 (Fin.last dim)
  rationalSurfaceDerRows dim (rationalSurfaceDerEntry dim A w) num_ders
    (num_ders + 1)

/-- Modelled from the spec: `rationalSurfaceDerivatives` with the entry
computation of §4.2 (`rationalSurfaceDerEntrySpec`) instead of the code's. -/
def rationalSurfaceDerivativesSpec (dim : ℕ) (u : ℚ) (v : ℚ) (degree_u : ℕ)
    (degree_v : ℕ) (knots_u : List ℚ) (knots_v : List ℚ)
    (control_points : List (List (Vec dim))) (weights : List (List ℚ))
    (num_ders : ℕ) : List (List (Vec dim)) :=
  let homo_cp := homogenousGrid dim control_points weights
  let homo_ders := surfaceDerivatives (dim + 1) u v degree_u degree_v
    knots_u knots_v homo_cp num_ders
  let A : ℕ → ℕ → Vec dim := fun i j =>
    truncateHomogenous ((homo_ders.getD i []).getD j 0)
  let w : ℕ → ℕ → ℚ := fun i j =>
    (homo_ders.getD i []).getD j 0 (Fin.last dim)
  rationalSurfaceDerRows dim (rationalSurfaceDerEntrySpec dim A w) num_ders
    (num_ders + 1)

/-! ## Helper lemmas -/

/-- Accumulating `acc + f j` over `j = 0..n-1` starting from `init` adds the
sum of `f` over the range: the functional content of the `+=` loops. -/
theorem foldl_add_eq_sum {M : Type} [AddCommMonoid M] (f : ℕ → M) (n : ℕ)
    (init : M) :
    (List.range n).foldl (fun acc j => acc + f j) init =
      init + ∑ j ∈ Finset.range n, f j := by
  induction n with
  | zero => simp
  | succ n ih =>
    rw [List.range_succ, List.foldl_append, ih, Finset.sum_range_succ]
    simp [add_assoc]

/-- `getD` entry of a table built as `map` over `List.range`. -/
theorem getD_map_range {α : Type} (f : ℕ → α) (n : ℕ) (k : ℕ) (d : α)
    (h : k < n) :
    ((List.range n).map f).getD k d = f k := by
  have hlen : k < ((List.range n).map f).length := by simpa using h
  rw [List.getD_eq_getElem _ _ hlen]
  simp

/-- In-range `getD` entry of a replicated list. -/
theorem getD_replicate_lt {α : Type} (x : α) (d : α) (n i : ℕ) (h : i < n) :
    (List.replicate n x).getD i d = x := by
  rw [List.getD_eq_getElem _ _ (by simpa using h)]
  simp

/-- `getD` of a replicated list whose element is also the default value. -/
theorem getD_replicate_default {α : Type} (d : α) (r n : ℕ) :
    (List.replicate r d).getD n d = d := by
  rw [List.getD_eq_getElem?_getD]
  exact List.getElem?_getD_replicate_default_eq d r n

/-- The inner recovery loop writes exactly `m` entries. -/
theorem length_rationalSurfaceDerRow (dim : ℕ)
    (entry : List (List (Vec dim)) → List (Vec dim) → ℕ → ℕ → Vec dim)
    (rows : List (List (Vec dim))) (k m : ℕ) :
    (rationalSurfaceDerRow dim entry rows k m).length = m := by
  induction m with
  | zero => rfl
  | succ m ih => simp [rationalSurfaceDerRow, ih]

/-- The outer recovery loop writes exactly `m` rows. -/
theorem length_rationalSurfaceDerRows (dim : ℕ)
    (entry : List (List (Vec dim)) → List (Vec dim) → ℕ → ℕ → Vec dim)
    (num_ders m : ℕ) :
    (rationalSurfaceDerRows dim entry num_ders m).length = m := by
  induction m with
  | zero => rfl
  | succ m ih => simp [rationalSurfaceDerRows, ih]

/-- Row `k` of the recovery output is the row written at step `k`:
`num_ders - k + 1` computed entries followed by `k` zero-initialised ones. -/
theorem getD_rationalSurfaceDerRows (dim : ℕ)
    (entry : List (List (Vec dim)) → List (Vec dim) → ℕ → ℕ → Vec dim)
    (num_ders m k : ℕ) (h : k < m) :
    (rationalSurfaceDerRows dim entry num_ders m).getD k [] =
      rationalSurfaceDerRow dim entry
          (rationalSurfaceDerRows dim entry num_ders k) k (num_ders - k + 1)
        ++ List.replicate k 0 := by
  induction m with
  | zero => omega
  | succ m ih =>
    rw [rationalSurfaceDerRows]
    rcases Nat.lt_or_ge k m with h' | h'
    · rw [List.getD_append _ _ _ _
        (by rw [length_rationalSurfaceDerRows]; exact h')]
      exact ih h'
    · have hkm : k = m := by omega
      subst hkm
      rw [List.getD_append_right _ _ _ _
        (by rw [length_rationalSurfaceDerRows])]
      rw [length_rationalSurfaceDerRows]
      simp

/-- Coordinate `t` of a curve point is the scalar local basis sum. -/
theorem curvePoint_apply (dim : ℕ) (u : ℚ) (degree : ℕ) (knots : List ℚ)
    (cps : List (Vec dim)) (t : Fin dim) :
    curvePoint dim u degree knots cps t =
      ∑ j ∈ Finset.range (degree + 1),
        (bsplineBasis degree (findSpan degree knots u) knots u).getD j 0 *
          cps.getD (findSpan degree knots u - degree + j) 0 t := by
  rw [curvePoint, foldl_add_eq_sum, zero_add, Finset.sum_apply]
  simp [Pi.smul_apply]

/-- Coordinate `t` of a surface point is the nested scalar basis sum. -/
theorem surfacePoint_apply (dim : ℕ) (u : ℚ) (v : ℚ)
    (degree_u degree_v : ℕ) (knots_u knots_v : List ℚ)
    (cps : List (List (Vec dim))) (t : Fin dim) :
    surfacePoint dim u v degree_u degree_v knots_u knots_v cps t =
      ∑ l ∈ Finset.range (degree_v + 1),
        (bsplineBasis degree_v (findSpan degree_v knots_v v) knots_v
            v).getD l 0 *
          ∑ k ∈ Finset.range (degree_u + 1),
            (bsplineBasis degree_u (findSpan degree_u knots_u u) knots_u
                u).getD k 0 *
              ((cps.getD (findSpan degree_u knots_u u - degree_u + k) []).getD
                (findSpan degree_v knots_v v - degree_v + l) 0) t := by
  rw [surfacePoint]
  simp only [foldl_add_eq_sum, zero_add, Finset.sum_apply, Pi.smul_apply,
    smul_eq_mul]

/-! ## Claim theorems -/

/-- Claim C5: for every degree, knot vector, control point list satisfying
the valid relation, and parameter in the knot domain, `curvePoint` returns
exactly `Σ_{j=0..degree} N_j · P_{span-degree+j}` with `span` from
`findSpan` and `N` from `bsplineBasis` at that span. -/
theorem curvePoint_is_local_basis_sum (dim : ℕ) (u : ℚ) (degree : ℕ)
    (knots : List ℚ) (control_points : List (Vec dim))
    (hvalid : isValidRelation degree knots.length control_points.length
      = true)
    (hdom : knots.getD degree 0 ≤ u ∧
      u ≤ knots.getD (knots.length - degree - 1) 0) :
    curvePoint dim u degree knots control_points =
      ∑ j ∈ Finset.range (degree + 1),
        (bsplineBasis degree (findSpan degree knots u) knots u).getD j 0 •
          control_points.getD (findSpan degree knots u - degree + j) 0 := by
  rw [curvePoint, foldl_add_eq_sum, zero_add]

/-- Witness for C5 at the degree-2 clamped curve of the spec's scenario. -/
theorem curvePoint_is_local_basis_sum_witness :
    isValidRelation 2 ([(0:ℚ),0,0,1,1,1].length)
        ([![0,0], ![1,2], ![2,0]] : List (Vec 2)).length = true
    ∧ (([(0:ℚ),0,0,1,1,1].getD 2 0 ≤ 1/2) ∧
        ((1:ℚ)/2 ≤ [(0:ℚ),0,0,1,1,1].getD ([(0:ℚ),0,0,1,1,1].length - 2 - 1) 0))
    ∧ curvePoint 2 (1/2) 2 [0,0,0,1,1,1] [![0,0], ![1,2], ![2,0]] =
        ∑ j ∈ Finset.range (2 + 1),
          (bsplineBasis 2 (findSpan 2 [0,0,0,1,1,1] (1/2)) [0,0,0,1,1,1]
              (1/2)).getD j 0 •
            ([![0,0], ![1,2], ![2,0]] : List (Vec 2)).getD
              (findSpan 2 [0,0,0,1,1,1] (1/2) - 2 + j) 0 :=
  ⟨by decide, ⟨by norm_num, by norm_num⟩,
    curvePoint_is_local_basis_sum 2 (1/2) 2 [0,0,0,1,1,1]
      [![0,0], ![1,2], ![2,0]] (by decide) ⟨by norm_num, by norm_num⟩⟩

/-- Claim C8: the degree-2 curve with knots `[0,0,0,1,1,1]` and control
points `[(0,0), (1,2), (2,0)]` evaluates to `(1,1)` at `u = 1/2`, `(0,0)` at
`u = 0` and `(2,0)` at `u = 1`. -/
theorem curvePoint_concrete_scenario :
    curvePoint 2 (1/2) 2 [0,0,0,1,1,1] [![0,0], ![1,2], ![2,0]] = ![1,1]
    ∧ curvePoint 2 0 2 [0,0,0,1,1,1] [![0,0], ![1,2], ![2,0]] = ![0,0]
    ∧ curvePoint 2 1 2 [0,0,0,1,1,1] [![0,0], ![1,2], ![2,0]] = ![2,0] := by
  refine ⟨?_, ?_, ?_⟩ <;>
    (funext i; fin_cases i <;>
      norm_num [curvePoint, findSpan, bsplineBasis, bsplineBasisStep,
        List.range_succ])

/-- Claim C7: `curveDerivatives` returns `num_ders + 1` entries; orders
beyond the degree are the zero vector; orders up to
`min(degree, num_ders)` are the basis-derivative/control-point sums. -/
theorem curveDerivatives_table_spec (dim : ℕ) (u : ℚ) (degree : ℕ)
    (knots : List ℚ) (control_points : List (Vec dim)) (num_ders : ℕ) :
    (curveDerivatives dim u degree knots control_points num_ders).length
        = num_ders + 1
    ∧ (∀ k, degree < k → k ≤ num_ders →
        (curveDerivatives dim u degree knots control_points num_ders).getD
          k 0 = 0)
    ∧ (∀ k, k ≤ min degree num_ders →
        (curveDerivatives dim u degree knots control_points num_ders).getD
            k 0
          = ∑ j ∈ Finset.range (degree + 1),
            ((bsplineDerBasis degree (findSpan degree knots u) knots u
                num_ders).getD k []).getD j 0 •
              control_points.getD (findSpan degree knots u - degree + j) 0) := by
  refine ⟨by simp [curveDerivatives], ?_, ?_⟩
  · intro k hk hk'
    rw [curveDerivatives]
    rw [getD_map_range _ _ _ _ (by omega)]
    rw [if_neg (by omega)]
  · intro k hk
    rw [curveDerivatives]
    rw [getD_map_range _ _ _ _ (by omega), if_pos (by omega),
      foldl_add_eq_sum, zero_add]

/-- Witness for C7: order 3 of the num_ders = 3 table of a degree-2 curve is
the zero vector. -/
theorem curveDerivatives_table_spec_witness :
    (2 < 3 ∧ 3 ≤ 3)
    ∧ (curveDerivatives 2 (1/2) 2 [0,0,0,1,1,1] [![0,0], ![1,2], ![2,0]]
        3).length = 4
    ∧ (curveDerivatives 2 (1/2) 2 [0,0,0,1,1,1] [![0,0], ![1,2], ![2,0]]
        3).getD 3 0 = 0 :=
  ⟨⟨by norm_num, by norm_num⟩,
    (curveDerivatives_table_spec 2 (1/2) 2 [0,0,0,1,1,1]
      [![0,0], ![1,2], ![2,0]] 3).1,
    (curveDerivatives_table_spec 2 (1/2) 2 [0,0,0,1,1,1]
      [![0,0], ![1,2], ![2,0]] 3).2.1 3 (by norm_num) (by norm_num)⟩

/-- Claim C2: every entry of the `surfaceDerivatives` table with
`k > degree_u` or `l > degree_v` (for `0 ≤ k, l ≤ num_ders`) is the exact
zero vector. -/
theorem surfaceDerivatives_beyond_degree_zero (dim : ℕ) (u : ℚ) (v : ℚ)
    (degree_u degree_v : ℕ) (knots_u knots_v : List ℚ)
    (control_points : List (List (Vec dim))) (num_ders : ℕ) (k l : ℕ)
    (hk : k ≤ num_ders) (hl : l ≤ num_ders)
    (h : degree_u < k ∨ degree_v < l) :
    ((surfaceDerivatives dim u v degree_u degree_v knots_u knots_v
        control_points num_ders).getD k []).getD l 0 = 0 := by
  rw [surfaceDerivatives]
  rw [getD_map_range _ _ _ _ (by omega), getD_map_range _ _ _ _ (by omega)]
  rw [if_neg (by omega)]

/-- Witness for C2 at a bilinear surface with num_ders = 2, entry (2, 0). -/
theorem surfaceDerivatives_beyond_degree_zero_witness :
    ((2:ℕ) ≤ 2 ∧ (0:ℕ) ≤ 2 ∧ ((1:ℕ) < 2 ∨ (1:ℕ) < 0))
    ∧ ((surfaceDerivatives 1 (1/2) (1/2) 1 1 [0,0,1,1] [0,0,1,1]
        [[![0],![0]],[![0],![1]]] 2).getD 2 []).getD 0 0 = 0 :=
  ⟨⟨by norm_num, by norm_num, Or.inl (by norm_num)⟩,
    surfaceDerivatives_beyond_degree_zero 1 (1/2) (1/2) 1 1 [0,0,1,1]
      [0,0,1,1] [[![0],![0]],[![0],![1]]] 2 2 0 (by norm_num) (by norm_num)
      (Or.inl (by norm_num))⟩

/-- Claim C9: `surfaceDerivatives` computes, via the basis/control-point
summation, exactly the entries with `k ≤ min(degree_u, num_ders)` and
`l ≤ min(degree_v, num_ders - k)` — so every computed mixed order satisfies
`k + l ≤ num_ders` — and every other entry of the table is zero. -/
theorem surfaceDerivatives_computed_bounds (dim : ℕ) (u : ℚ) (v : ℚ)
    (degree_u degree_v : ℕ) (knots_u knots_v : List ℚ)
    (control_points : List (List (Vec dim))) (num_ders : ℕ) :
    (∀ k l, k ≤ min degree_u num_ders → l ≤ min degree_v (num_ders - k) →
      (k + l ≤ num_ders ∧
        ((surfaceDerivatives dim u v degree_u degree_v knots_u knots_v
            control_points num_ders).getD k []).getD l 0 =
          ∑ s ∈ Finset.range (degree_v + 1),
            ((bsplineDerBasis degree_v (findSpan degree_v knots_v v) knots_v
                v num_ders).getD l []).getD s 0 •
              ∑ r ∈ Finset.range (degree_u + 1),
                ((bsplineDerBasis degree_u (findSpan degree_u knots_u u)
                    knots_u u num_ders).getD k []).getD r 0 •
                  ((control_points.getD
                      (findSpan degree_u knots_u u - degree_u + r) []).getD
                    (findSpan degree_v knots_v v - degree_v + s) 0)))
    ∧ (∀ k l, k ≤ num_ders → l ≤ num_ders →
        ¬(k ≤ min degree_u num_ders ∧ l ≤ min degree_v (num_ders - k)) →
        ((surfaceDerivatives dim u v degree_u degree_v knots_u knots_v
            control_points num_ders).getD k []).getD l 0 = 0) := by
  constructor
  · intro k l hk hl
    refine ⟨by omega, ?_⟩
    rw [surfaceDerivatives]
    rw [getD_map_range _ _ _ _ (by omega), getD_map_range _ _ _ _ (by omega)]
    rw [if_pos (by omega)]
    simp only [foldl_add_eq_sum, zero_add]
  · intro k l hk hl h
    rw [surfaceDerivatives]
    rw [getD_map_range _ _ _ _ (by omega), getD_map_range _ _ _ _ (by omega)]
    rw [if_neg (by omega)]

/-- Witness for C9: at a bilinear surface with num_ders = 2, the entry
(1, 2), which violates the `l ≤ min(degree_v, num_ders - k)` bound, is
zero. -/
theorem surfaceDerivatives_computed_bounds_witness :
    ((1:ℕ) ≤ 2 ∧ (2:ℕ) ≤ 2
      ∧ ¬((1:ℕ) ≤ min 1 2 ∧ (2:ℕ) ≤ min 1 (2 - 1)))
    ∧ ((surfaceDerivatives 1 (1/2) (1/2) 1 1 [0,0,1,1] [0,0,1,1]
        [[![0],![0]],[![0],![1]]] 2).getD 1 []).getD 2 0 = 0 :=
  ⟨⟨by norm_num, by norm_num, by omega⟩,
    (surfaceDerivatives_computed_bounds 1 (1/2) (1/2) 1 1 [0,0,1,1]
      [0,0,1,1] [[![0],![0]],[![0],![1]]] 2).2 1 2 (by norm_num)
      (by norm_num) (by omega)⟩

/-- Claim C10: `rationalSurfaceDerivatives` assigns only the entries with
`k + l ≤ num_ders`; every entry with `k + l > num_ders`
(`0 ≤ k, l ≤ num_ders`) keeps the zero value the resize value-initialised
it to. -/
theorem rationalSurfaceDerivatives_frame (dim : ℕ) (u : ℚ) (v : ℚ)
    (degree_u degree_v : ℕ) (knots_u knots_v : List ℚ)
    (control_points : List (List (Vec dim))) (weights : List (List ℚ))
    (num_ders : ℕ) (k l : ℕ) (hk : k ≤ num_ders) (hl : l ≤ num_ders)
    (h : num_ders < k + l) :
    ((rationalSurfaceDerivatives dim u v degree_u degree_v knots_u knots_v
        control_points weights num_ders).getD k []).getD l 0 = 0 := by
  rw [rationalSurfaceDerivatives]
  rw [getD_rationalSurfaceDerRows _ _ _ _ _ (by omega)]
  rw [List.getD_append_right _ _ _ _
    (by rw [length_rationalSurfaceDerRow]; omega)]
  rw [length_rationalSurfaceDerRow]
  exact getD_replicate_default _ _ _

/-- Witness for C10 at a bilinear rational surface, num_ders = 2, entry
(2, 1). -/
theorem rationalSurfaceDerivatives_frame_witness :
    ((2:ℕ) ≤ 2 ∧ (1:ℕ) ≤ 2 ∧ (2:ℕ) < 2 + 1)
    ∧ ((rationalSurfaceDerivatives 1 (1/2) (1/2) 1 1 [0,0,1,1] [0,0,1,1]
        [[![0],![0]],[![0],![1]]] [[1,1],[1,2]] 2).getD 2 []).getD 1 0 = 0 :=
  ⟨⟨by norm_num, by norm_num, by norm_num⟩,
    rationalSurfaceDerivatives_frame 1 (1/2) (1/2) 1 1 [0,0,1,1] [0,0,1,1]
      [[![0],![0]],[![0],![1]]] [[1,1],[1,2]] 2 2 1 (by norm_num)
      (by norm_num) (by norm_num)⟩

/-- Claim C6: with every weight set to 1, rational point evaluation agrees
with non-rational point evaluation — for curves and surfaces whose span
indices are in range and whose non-zero basis values sum to 1 (the §6
contract) — and in particular the degree-2 curve with knots `[0,0,0,1,1,1]`,
control points `[(0,0), (1,2), (2,0)]` and weights `[1,1,1]` evaluates
rationally at `u = 1/2` to `(1,1)`. -/
theorem rational_weight_one_point_agreement :
    (∀ (dim : ℕ) (u : ℚ) (degree : ℕ) (knots : List ℚ) (P : List (Vec dim)),
      degree ≤ findSpan degree knots u →
      findSpan degree knots u < P.length →
      ∑ j ∈ Finset.range (degree + 1),
          (bsplineBasis degree (findSpan degree knots u) knots u).getD j 0
        = 1 →
      rationalCurvePoint dim u degree knots P (List.replicate P.length 1)
        = curvePoint dim u degree knots P)
    ∧ (∀ (dim : ℕ) (u v : ℚ) (degree_u degree_v : ℕ)
        (knots_u knots_v : List ℚ) (cps : List (List (Vec dim))),
      degree_u ≤ findSpan degree_u knots_u u →
      findSpan degree_u knots_u u < cps.length →
      degree_v ≤ findSpan degree_v knots_v v →
      findSpan degree_v knots_v v < (cps.getD 0 []).length →
      ∑ k ∈ Finset.range (degree_u + 1),
          (bsplineBasis degree_u (findSpan degree_u knots_u u) knots_u
            u).getD k 0 = 1 →
      ∑ l ∈ Finset.range (degree_v + 1),
          (bsplineBasis degree_v (findSpan degree_v knots_v v) knots_v
            v).getD l 0 = 1 →
      rationalSurfacePoint dim u v degree_u degree_v knots_u knots_v cps
          (List.replicate cps.length
            (List.replicate (cps.getD 0 []).length 1))
        = surfacePoint dim u v degree_u degree_v knots_u knots_v cps)
    ∧ rationalCurvePoint 2 (1/2) 2 [0,0,0,1,1,1] [![0,0], ![1,2], ![2,0]]
        [1,1,1] = ![1,1] := by
  refine ⟨?_, ?_, ?_⟩
  · intro dim u degree knots P hdeg hspan hN
    have hCw : ∀ j ∈ Finset.range (degree + 1),
        ((List.range P.length).map fun i =>
            cartesianToHomogenous (P.getD i 0)
              ((List.replicate P.length (1:ℚ)).getD i 0)).getD
          (findSpan degree knots u - degree + j) 0
        = cartesianToHomogenous
            (P.getD (findSpan degree knots u - degree + j) 0) 1 := by
      intro j hj
      have hj' : j < degree + 1 := Finset.mem_range.mp hj
      have hidx : findSpan degree knots u - degree + j < P.length := by omega
      rw [getD_map_range _ _ _ _ hidx, getD_replicate_lt _ _ _ _ hidx]
    funext t
    simp only [rationalCurvePoint, homogenousToCartesian]
    rw [curvePoint_apply, curvePoint_apply, curvePoint_apply]
    have h2 : ∀ j ∈ Finset.range (degree + 1),
        (bsplineBasis degree (findSpan degree knots u) knots u).getD j 0 *
          (((List.range P.length).map fun i =>
              cartesianToHomogenous (P.getD i 0)
                ((List.replicate P.length (1:ℚ)).getD i 0)).getD
            (findSpan degree knots u - degree + j) 0) (Fin.last dim)
        = (bsplineBasis degree (findSpan degree knots u) knots u).getD j 0 := by
      intro j hj
      rw [hCw j hj]
      simp [cartesianToHomogenous]
    have h1 : ∀ j ∈ Finset.range (degree + 1),
        (bsplineBasis degree (findSpan degree knots u) knots u).getD j 0 *
          (((List.range P.length).map fun i =>
              cartesianToHomogenous (P.getD i 0)
                ((List.replicate P.length (1:ℚ)).getD i 0)).getD
            (findSpan degree knots u - degree + j) 0) t.castSucc
        = (bsplineBasis degree (findSpan degree knots u) knots u).getD j 0 *
            P.getD (findSpan degree knots u - degree + j) 0 t := by
      intro j hj
      rw [hCw j hj]
      simp [cartesianToHomogenous]
    rw [Finset.sum_congr rfl h1, Finset.sum_congr rfl h2, hN, div_one]
  · intro dim u v degree_u degree_v knots_u knots_v cps hdegu hsu hdegv hsv
      hNu hNv
    have hCw : ∀ k ∈ Finset.range (degree_u + 1),
        ∀ l ∈ Finset.range (degree_v + 1),
        ((homogenousGrid dim cps
            (List.replicate cps.length
              (List.replicate (cps.getD 0 []).length 1))).getD
          (findSpan degree_u knots_u u - degree_u + k) []).getD
            (findSpan degree_v knots_v v - degree_v + l) 0
        = cartesianToHomogenous
            ((cps.getD (findSpan degree_u knots_u u - degree_u + k) []).getD
              (findSpan degree_v knots_v v - degree_v + l) 0) 1 := by
      intro k hk l hl
      have hk' : k < degree_u + 1 := Finset.mem_range.mp hk
      have hl' : l < degree_v + 1 := Finset.mem_range.mp hl
      have hiu : findSpan degree_u knots_u u - degree_u + k < cps.length := by
        omega
      have hiv : findSpan degree_v knots_v v - degree_v + l
          < (cps.getD 0 []).length := by omega
      rw [homogenousGrid, getD_map_range _ _ _ _ hiu,
        getD_map_range _ _ _ _ hiv, getD_replicate_lt _ _ _ _ hiu,
        getD_replicate_lt _ _ _ _ hiv]
    funext t
    simp only [rationalSurfacePoint, homogenousToCartesian]
    rw [surfacePoint_apply, surfacePoint_apply, surfacePoint_apply]
    have hlast : ∀ l ∈ Finset.range (degree_v + 1),
        (bsplineBasis degree_v (findSpan degree_v knots_v v) knots_v
            v).getD l 0 *
          ∑ k ∈ Finset.range (degree_u + 1),
            (bsplineBasis degree_u (findSpan degree_u knots_u u) knots_u
                u).getD k 0 *
              (((homogenousGrid dim cps
                  (List.replicate cps.length
                    (List.replicate (cps.getD 0 []).length 1))).getD
                (findSpan degree_u knots_u u - degree_u + k) []).getD
                  (findSpan degree_v knots_v v - degree_v + l) 0)
                (Fin.last dim)
        = (bsplineBasis degree_v (findSpan degree_v knots_v v) knots_v
            v).getD l 0 := by
      intro l hl
      have hinner : ∀ k ∈ Finset.range (degree_u + 1),
          (bsplineBasis degree_u (findSpan degree_u knots_u u) knots_u
              u).getD k 0 *
            (((homogenousGrid dim cps
                (List.replicate cps.length
                  (List.replicate (cps.getD 0 []).length 1))).getD
              (findSpan degree_u knots_u u - degree_u + k) []).getD
                (findSpan degree_v knots_v v - degree_v + l) 0)
              (Fin.last dim)
          = (bsplineBasis degree_u (findSpan degree_u knots_u u) knots_u
              u).getD k 0 := by
        intro k hk
        rw [hCw k hk l hl]
        simp [cartesianToHomogenous]
      rw [Finset.sum_congr rfl hinner, hNu, mul_one]
    have hcast : ∀ l ∈ Finset.range (degree_v + 1),
        (bsplineBasis degree_v (findSpan degree_v knots_v v) knots_v
            v).getD l 0 *
          ∑ k ∈ Finset.range (degree_u + 1),
            (bsplineBasis degree_u (findSpan degree_u knots_u u) knots_u
                u).getD k 0 *
              (((homogenousGrid dim cps
                  (List.replicate cps.length
                    (List.replicate (cps.getD 0 []).length 1))).getD
                (findSpan degree_u knots_u u - degree_u + k) []).getD
                  (findSpan degree_v knots_v v - degree_v + l) 0) t.castSucc
        = (bsplineBasis degree_v (findSpan degree_v knots_v v) knots_v
              v).getD l 0 *
            ∑ k ∈ Finset.range (degree_u + 1),
              (bsplineBasis degree_u (findSpan degree_u knots_u u) knots_u
                  u).getD k 0 *
                ((cps.getD (findSpan degree_u knots_u u - degree_u + k)
                    []).getD
                  (findSpan degree_v knots_v v - degree_v + l) 0) t := by
      intro l hl
      have hinner : ∀ k ∈ Finset.range (degree_u + 1),
          (bsplineBasis degree_u (findSpan degree_u knots_u u) knots_u
              u).getD k 0 *
            (((homogenousGrid dim cps
                (List.replicate cps.length
                  (List.replicate (cps.getD 0 []).length 1))).getD
              (findSpan degree_u knots_u u - degree_u + k) []).getD
                (findSpan degree_v knots_v v - degree_v + l) 0) t.castSucc
          = (bsplineBasis degree_u (findSpan degree_u knots_u u) knots_u
                u).getD k 0 *
              ((cps.getD (findSpan degree_u knots_u u - degree_u + k)
                  []).getD
                (findSpan degree_v knots_v v - degree_v + l) 0) t := by
        intro k hk
        rw [hCw k hk l hl]
        simp [cartesianToHomogenous]
      rw [Finset.sum_congr rfl hinner]
    rw [Finset.sum_congr rfl hcast, Finset.sum_congr rfl hlast, hNv, div_one]
  · funext i
    fin_cases i <;>
      norm_num [rationalCurvePoint, homogenousToCartesian, curvePoint,
        cartesianToHomogenous, findSpan, bsplineBasis, bsplineBasisStep,
        List.range_succ, Fin.snoc, Fin.last, Fin.castLT, Fin.mk_one,
        Fin.mk_zero, Matrix.cons_val_one, Matrix.cons_val_zero,
        Matrix.head_cons]

/-- Witness for C6: the all-weights-one rational evaluation of the spec's
degree-2 curve agrees with the non-rational one. -/
theorem rational_weight_one_point_agreement_witness :
    rationalCurvePoint 2 (1/2) 2 [0,0,0,1,1,1] [![0,0], ![1,2], ![2,0]]
        (List.replicate 3 1)
      = curvePoint 2 (1/2) 2 [0,0,0,1,1,1] [![0,0], ![1,2], ![2,0]] :=
  rational_weight_one_point_agreement.1 2 (1/2) 2 [0,0,0,1,1,1]
    [![0,0], ![1,2], ![2,0]]
    (by norm_num [findSpan, List.range_succ])
    (by norm_num [findSpan, List.range_succ])
    (by norm_num [bsplineBasis, bsplineBasisStep, findSpan, List.range_succ,
      Finset.sum_range_succ])

/-- Claim C1 (failing): at the degree-1 planar curve with knots
`[0,0,1,1]`, control points `[(1,2), (1,2)]`, weights `[1,1]`, `u = 0` and
`num_ders = 0`, the code's split of the homogeneous derivative `(1,2,1)`
takes the weight from component `dim - 1` (the value 2, the y-coordinate)
instead of the last component (the weight 1), so the order-0 x-coordinate
comes out `1/2` for every value of the uninitialised component, while the
split the claim describes yields `1`. -/
theorem rationalCurveDerivatives_split_bug :
    ∀ junk : ℚ,
      (rationalCurveDerivatives 2 junk 0 1 [0,0,1,1] [![1,2], ![1,2]] [1,1]
          0).getD 0 0 0 = 1/2
      ∧ (rationalCurveDerivativesSpec 2 0 1 [0,0,1,1] [![1,2], ![1,2]] [1,1]
          0).getD 0 0 0 = 1 := by
  intro junk
  constructor <;>
    norm_num [rationalCurveDerivatives, rationalCurveDerivativesSpec,
      rationalCurveDersLoop, curveDerivatives, bsplineDerBasis, bsplineBasis,
      bsplineBasisStep, findSpan, cartesianToHomogenous, truncateHomogenous,
      List.range_succ, Fin.snoc, Fin.last, Fin.castLT, Fin.mk_one,
      Fin.mk_zero, Matrix.cons_val_one, Matrix.cons_val_zero,
      Matrix.head_cons]

set_option maxHeartbeats 1000000 in
/-- Claim C3 (failing): at the bidegree-(1,1) rational surface with knots
`[0,0,1,1]` in both directions, scalar control values `[[0,0],[0,1]]`,
weights `[[1,1],[1,2]]`, parameters `(1/2, 1/2)` and `num_ders = 2`, the
code's entry of order `(1,1)` is `176/125`, while the recurrence the claim
states (subtracting the mixed cross terms with `surf_ders[k-i][l-j]`)
yields `96/125`, the true mixed derivative of the rational surface. -/
theorem rationalSurfaceDerivatives_cross_term_bug :
    ((rationalSurfaceDerivatives 1 (1/2) (1/2) 1 1 [0,0,1,1] [0,0,1,1]
        [[![0],![0]],[![0],![1]]] [[1,1],[1,2]] 2).getD 1 []).getD 1 0 0
      = 176/125
    ∧ ((rationalSurfaceDerivativesSpec 1 (1/2) (1/2) 1 1 [0,0,1,1] [0,0,1,1]
        [[![0],![0]],[![0],![1]]] [[1,1],[1,2]] 2).getD 1 []).getD 1 0 0
      = 96/125 := by
  constructor <;>
    norm_num [rationalSurfaceDerivatives, rationalSurfaceDerivativesSpec,
      rationalSurfaceDerRows, rationalSurfaceDerRow, rationalSurfaceDerEntry,
      rationalSurfaceDerEntrySpec, homogenousGrid, surfaceDerivatives,
      bsplineDerBasis, bsplineBasis, bsplineBasisStep, oneBasisDer, findSpan,
      cartesianToHomogenous, truncateHomogenous, binomial, List.range_succ,
      Fin.snoc, Fin.last, Fin.castLT, Fin.mk_one, Fin.mk_zero,
      Matrix.cons_val_one, Matrix.cons_val_zero, Matrix.head_cons]

set_option maxHeartbeats 1000000 in
/-- Claim C4 (failing): with all weights 1, `rationalCurveDerivatives` does
not reproduce `curveDerivatives`: at the degree-1 curve with knots
`[0,0,1,1]`, control points `[(1,2), (1,2)]` and `u = 0`, the order-0
x-coordinate of the rational routine is `1/2` (it divides by the
y-coordinate of the homogeneous point) while the non-rational routine
returns `1`. -/
theorem rational_weight_one_derivative_mismatch :
    ∀ junk : ℚ,
      (rationalCurveDerivatives 2 junk 0 1 [0,0,1,1] [![1,2], ![1,2]] [1,1]
          0).getD 0 0 0 = 1/2
      ∧ (curveDerivatives 2 0 1 [0,0,1,1] [![1,2], ![1,2]] 0).getD 0 0 0
        = 1 := by
  intro junk
  constructor <;>
    norm_num [rationalCurveDerivatives, rationalCurveDersLoop,
      curveDerivatives, bsplineDerBasis, bsplineBasis, bsplineBasisStep,
      findSpan, cartesianToHomogenous, List.range_succ, Fin.snoc, Fin.last,
      Fin.castLT, Fin.mk_one, Fin.mk_zero, Matrix.cons_val_one,
      Matrix.cons_val_zero, Matrix.head_cons]

end nurbstk
